import Mathlib

/-
Verification of the date-based photo renaming program.

Strings of the Python program are modelled as lists of Unicode code
points (`PyStr := List Nat`); a Python `str` holds code points in the
range 0 .. 0x10FFFF.  All definitions below are translated from
`src/rename_photos_date_based.py`; each definition's doc comment names
the source symbol and lines it embeds.
-/

/-- A Python string, as its list of Unicode code points. -/
abbrev PyStr := List Nat

/-- Builds a PyStr from Lean characters, for concrete examples. -/
def pstr (l : List Char) : PyStr := l.map Char.toNat

/-- Longest suffix of `l` whose code points all satisfy `q`
(take-while from the right). -/
def revTakeW (q : Nat → Bool) (l : PyStr) : PyStr :=
  (l.reverse.takeWhile q).reverse

/-- The complementary left part of `revTakeW`
(drop-while from the right). -/
def revDropW (q : Nat → Bool) (l : PyStr) : PyStr :=
  (l.reverse.dropWhile q).reverse

/-- Code point constants used by the program. -/
def cpSlash : Nat := 47

def cpDot : Nat := 46

def cpUnderscore : Nat := 95

def cpColon : Nat := 58

def cpHyphen : Nat := 45

def cpSpace : Nat := 32

def cpPlus : Nat := 43

def cpLowerA : Nat := 97

/-- Predicate: not a slash (used to isolate the basename part). -/
def notSlash : Nat → Bool := fun c => decide (¬ c = cpSlash)

/-- Predicate: not a dot. -/
def notDot : Nat → Bool := fun c => decide (¬ c = cpDot)

/-- Predicate: not an underscore. -/
def notUnder : Nat → Bool := fun c => decide (¬ c = cpUnderscore)

/-- Branch logic of `os.path.splitext` once the basename has been cut
at its last dot: `dir` is everything up to and including the last
slash, `pre` the basename part ending at the last dot (inclusive),
`post` the remainder.  An extension is split off only when the
basename has a dot preceded by some non-dot character. -/
def splitextCore (p dir pre post : PyStr) : PyStr × PyStr :=
  if pre = [] then (p, [])
  else if pre.dropLast.any notDot then (dir ++ pre.dropLast, cpDot :: post)
  else (p, [])

/-- Embeds POSIX `os.path.splitext(p)`: split `p` into `(stem, ext)` at
the last dot of the basename, provided a non-dot character precedes
that dot within the basename (leading dots never start an extension). -/
def splitext (p : PyStr) : PyStr × PyStr :=
  splitextCore p (revDropW notSlash p)
    (revDropW notDot (revTakeW notSlash p))
    (revTakeW notDot (revTakeW notSlash p))

/-- Embeds `name.rsplit("_", 1)` unpacked into two variables: `none`
models the ValueError raised when `name` has no underscore; otherwise
returns the part before and the part after the last underscore. -/
def rsplitUnderscore (name : PyStr) : Option (PyStr × PyStr) :=
  if revDropW notUnder name = [] then none
  else some ((revDropW notUnder name).dropLast, revTakeW notUnder name)

/-- Embeds POSIX `os.path.join(a, b)` for the two-argument case. -/
def pyJoin (a b : PyStr) : PyStr :=
  if b.headD 0 = cpSlash then b
  else if a = [] ∨ a.getLastD 0 = cpSlash then a ++ b
  else a ++ [cpSlash] ++ b

/-- Embeds POSIX `os.path.basename(p)`: the suffix after the last
slash. -/
def pyBasename (p : PyStr) : PyStr :=
  revTakeW notSlash p

/-- Embeds `os.path.exists(p)` against an explicit destination-directory
state: the list of full paths currently existing. -/
def pyExistsB (st : List PyStr) (p : PyStr) : Bool :=
  decide (p ∈ st)

/-- Embeds `str.count(":")`. -/
def countColon (s : PyStr) : Nat := s.count cpColon

/-- Embeds `date.replace(":", "-", k)`: replace the first `k` colons by
hyphens, scanning left to right (source line 75). -/
def replaceColonHyphen : Nat → PyStr → PyStr
  | _, [] => []
  | 0, s => s
  | k + 1, c :: rest =>
    if c = cpColon then cpHyphen :: replaceColonHyphen k rest
    else c :: replaceColonHyphen (k + 1) rest

/-- Embeds `fix_date_format` (source lines 64-76): when the optional
date string has more than two colons, replace the first two colons by
hyphens; otherwise return the input unchanged (including `None`). -/
def fix_date_format (date : Option PyStr) : Option PyStr :=
  match date with
  | none => none
  | some s => if countColon s > 2 then some (replaceColonHyphen 2 s) else some s

/-- Decimal digits of a natural number, with explicit fuel for
structural recursion (fuel `n + 1` always suffices for `n`). -/
def natReprAux : Nat → Nat → PyStr
  | 0, _ => []
  | _, 0 => []
  | fuel + 1, n => natReprAux fuel (n / 10) ++ [48 + n % 10]

/-- Embeds Python `str(n)` for a non-negative integer (the sequential
counter interpolated by the f-string in `construct_filename`). -/
def natRepr (n : Nat) : PyStr :=
  if n = 0 then [48] else natReprAux (n + 1) n

/-- Python `c.isalnum()` restricted to the ASCII range (the model does
not carry the full Unicode alphanumeric table). -/
def pyIsAlnum (c : Nat) : Bool :=
  decide ((48 ≤ c ∧ c ≤ 57) ∨ (65 ≤ c ∧ c ≤ 90) ∨ (97 ≤ c ∧ c ≤ 122))

/-- Embeds `construct_filename` (source lines 230-262): the token is
the counter's decimal form when no date is present, else the date with
spaces turned into underscores and colons removed; when requested and
the original name is non-empty, its alphanumeric/underscore/hyphen
characters are appended after another underscore. -/
def construct_filename (pfx : PyStr) (date : Option PyStr) (count : Nat)
    (file_extension : PyStr) (include_original_name : Bool)
    (original_name : PyStr) : PyStr :=
  let tok : PyStr :=
    match date with
    | none => natRepr count
    | some s =>
      (s.map (fun c => if c = cpSpace then cpUnderscore else c)).filter
        (fun c => decide (¬ c = cpColon))
  if include_original_name ∧ original_name ≠ [] then
    let safe_name := original_name.filter
      (fun c => pyIsAlnum c || decide (c = cpUnderscore) || decide (c = cpHyphen))
    pfx ++ [cpUnderscore] ++ tok ++ [cpUnderscore] ++ safe_name ++ file_extension
  else pfx ++ [cpUnderscore] ++ tok ++ file_extension

/-- Result of comparing the existing destination image with the source
image (`Image.open` on both plus `==`): they compare equal, they
compare different, or some exception is raised while opening or
comparing (any decode failure). -/
inductive CmpRes
  | equal
  | different
  | decodeError
deriving DecidableEq

/-- The `filetype.guess` result object: only its `mime` attribute is
consulted by the engine. -/
structure Kind where
  mime : PyStr
deriving DecidableEq

/-- The mime family test `kind.mime.startswith("image")`. -/
def kindIsImage (k : Kind) : Bool :=
  decide ((pstr ['i', 'm', 'a', 'g', 'e']) <+: k.mime)

/-- The mime family test `kind.mime.startswith("video")`. -/
def kindIsVideo (k : Kind) : Bool :=
  decide ((pstr ['v', 'i', 'd', 'e', 'o']) <+: k.mime)

/-- The filesystem and image environment one run step observes: the
set of destination paths that currently exist, and the outcome of the
pixel comparison of the source file with any given existing path. -/
structure Env where
  dirState : List PyStr
  cmp : PyStr → CmpRes

/-- Embeds `compare_possible_duplicate_images` (source lines 265-283):
inside `contextlib.suppress(Exception)` both files are opened and
compared; equality returns `(False, "")` (here `(none, [])`), while a
different result or any exception falls through to returning the
arguments unchanged. -/
def compare_possible_duplicate_images (env : Env)
    (dest_filepath _filepath filename : PyStr) : Option PyStr × PyStr :=
  match env.cmp dest_filepath with
  | CmpRes.equal => (none, [])
  | CmpRes.different => (some dest_filepath, filename)
  | CmpRes.decodeError => (some dest_filepath, filename)

/-- The filename-mutation step of `check_if_file_exists` (source lines
312-325).  `rsplitUnderscore` returning `none` models the ValueError of
unpacking `name.rsplit("_", 1)` when the stem has no underscore, and
the bound `0x10FFFF` models `chr(ord(last_char) + 1)` raising
ValueError when the increment leaves the Unicode range; both are
caught by the `except ValueError` branch, which appends a literal `a`
to the stem. -/
def mutate_filename (filename : PyStr) : PyStr :=
  let se := splitext filename
  let name := se.1
  let ext := se.2
  match rsplitUnderscore name with
  | none => name ++ [cpLowerA] ++ ext
  | some (old_name, date_time) =>
    if 6 < date_time.length then
      if date_time.getLastD 0 + 1 < 1114112 then
        old_name ++ [cpUnderscore] ++
          (date_time.take 6 ++ [date_time.getLastD 0 + 1]) ++ ext
      else name ++ [cpLowerA] ++ ext
    else old_name ++ [cpUnderscore] ++ (date_time.take 6 ++ [cpLowerA]) ++ ext

/-- Embeds `check_if_file_exists` (source lines 286-332).  The first
result component `none` models the Python `False` (duplicate/skip
signal).  The recursion of the source has no structural bound, so the
model takes explicit fuel; `none` at the outer option means the
recursion did not finish within the given fuel. -/
def check_if_file_exists (env : Env) (filepath dest_path filename : PyStr)
    (kind : Kind) : Nat → Option (Option PyStr × PyStr)
  | 0 => none
  | fuel + 1 =>
    let dest_filepath := pyJoin dest_path filename
    if pyExistsB env.dirState dest_filepath then
      if kindIsImage kind then
        let cmpRes := compare_possible_duplicate_images env dest_filepath filepath filename
        if cmpRes.1 = none ∨ cmpRes.1 = some [] ∨ cmpRes.2 = [] then some (none, [])
        else check_if_file_exists env filepath dest_path (mutate_filename filename) kind fuel
      else check_if_file_exists env filepath dest_path (mutate_filename filename) kind fuel
    else some (some dest_filepath, filename)

/-- Return value of `save_renamed_file`, one constructor for each of
the distinct strings the source returns: the duplicate message, the
dry-run message carrying the resolved name, the plain resolved name on
a successful copy, and the copy-error message. -/
inductive SaveResult
  | duplicateDetected
  | dryRunName (f : PyStr)
  | saved (f : PyStr)
  | copyError
deriving DecidableEq

/-- Embeds `save_renamed_file` (source lines 335-364).  `copyOk` is
the environment's answer to whether `copy2` succeeds; a successful
copy adds the destination path to the directory state. -/
def save_renamed_file (env : Env) (filepath dest_path filename : PyStr)
    (kind : Kind) (dry_run copyOk : Bool) (fuel : Nat) :
    Option (SaveResult × List PyStr) :=
  match check_if_file_exists env filepath dest_path filename kind fuel with
  | none => none
  | some (destOpt, fn) =>
    match destOpt with
    | none => some (SaveResult.duplicateDetected, env.dirState)
    | some d =>
      if d = [] then some (SaveResult.duplicateDetected, env.dirState)
      else if dry_run then some (SaveResult.dryRunName fn, env.dirState)
      else if copyOk then some (SaveResult.saved fn, env.dirState ++ [d])
      else some (SaveResult.copyError, env.dirState)

/-- Embeds `process_file` (source lines 396-452).  The results of the
two metadata extractors (I/O against external tools) are supplied as
environment parameters `extractedImageDate` and `extractedVideoDate`;
`guess` is the `filetype.guess` result.  Returns the extracted date,
the updated counter and the updated directory state; the outer `none`
again means collision resolution ran out of fuel. -/
def process_file (env : Env) (guess : Option Kind)
    (extractedImageDate extractedVideoDate : Option PyStr)
    (filepath pfx : PyStr) (count : Nat) (dest_path : PyStr)
    (include_original_name dry_run copyOk : Bool) (fuel : Nat) :
    Option (Option PyStr × Nat × List PyStr) :=
  let file_extension := (splitext filepath).2
  let original_name := (splitext (pyBasename filepath)).1
  match guess with
  | none => some (none, count, env.dirState)
  | some kind =>
    let date : Option PyStr :=
      if kindIsImage kind then extractedImageDate
      else if kindIsVideo kind then extractedVideoDate
      else none
    let filename := construct_filename pfx date count file_extension
      include_original_name original_name
    match save_renamed_file env filepath dest_path filename kind dry_run copyOk fuel with
    | none => none
    | some (_, st) => some (date, count + 1, st)

/-- The sequence of candidate names obtained by iterating the
collision-mutation step `k` times. -/
def iterateMutate : Nat → PyStr → PyStr
  | 0, s => s
  | k + 1, s => iterateMutate k (mutate_filename s)

/-- ASCII whitespace as recognised by `int(str)` stripping and by the
regex `\s` used by `strptime` (the model restricts the Unicode
whitespace classes to their ASCII members). -/
def isPyWs (c : Nat) : Bool :=
  decide (c = 9 ∨ c = 10 ∨ c = 11 ∨ c = 12 ∨ c = 13 ∨ c = 28 ∨ c = 29 ∨ c = 30 ∨ c = 31 ∨ c = 32)

/-- ASCII decimal digit test. -/
def isDigitCp (c : Nat) : Bool := decide (48 ≤ c ∧ c ≤ 57)

/-- Tail of a valid `int(...)` digit sequence after its first digit:
digits with single underscores allowed between digits (PEP 515). -/
def intLiteralTail : PyStr → Bool
  | [] => true
  | 95 :: rest =>
    match rest with
    | [] => false
    | d :: rest2 => isDigitCp d && intLiteralTail rest2
  | c :: rest => isDigitCp c && intLiteralTail rest

/-- Numeric value of a digit-and-underscore sequence. -/
def digitsValue (s : PyStr) : Nat :=
  s.foldl (fun acc c => if isDigitCp c then acc * 10 + (c - 48) else acc) 0

/-- Embeds `int(s)` on strings, restricted to ASCII: strip whitespace,
an optional sign, then a digit sequence with optional single
underscores between digits.  `none` models the ValueError. -/
def pyIntOfStr (s : PyStr) : Option Int :=
  let t := revDropW (fun c => isPyWs c) (List.dropWhile isPyWs s)
  match t with
  | [] => none
  | c :: rest =>
    if c = 43 ∨ c = 45 then
      match rest with
      | [] => none
      | d :: rest2 =>
        if isDigitCp d && intLiteralTail rest2 then
          some (if c = 45 then -(digitsValue rest : Int) else (digitsValue rest : Int))
        else none
    else
      if isDigitCp c && intLiteralTail rest then some ((digitsValue t : Int))
      else none

/-- A `datetime.datetime` value (no timezone, microseconds unused by
the program). -/
structure PyDateTime where
  year : Nat
  month : Nat
  day : Nat
  hour : Nat
  minute : Nat
  second : Nat
deriving DecidableEq

/-- Gregorian leap-year rule. -/
def isLeapYear (y : Nat) : Bool :=
  (y % 4 = 0 && decide (¬ y % 100 = 0)) || y % 400 = 0

/-- Days in a month of a given year. -/
def daysInMonth (y m : Nat) : Nat :=
  if m = 2 then (if isLeapYear y then 29 else 28)
  else if m = 4 ∨ m = 6 ∨ m = 9 ∨ m = 11 then 30
  else 31

/-- Days in the months strictly before month `m` of year `y`. -/
def daysBeforeMonth (y m : Nat) : Nat :=
  (List.range (m - 1)).foldl (fun acc i => acc + daysInMonth y (i + 1)) 0

/-- Proleptic Gregorian ordinal of a date (day 1 is 0001-01-01), as in
`datetime.toordinal`. -/
def toOrdinal (y m d : Nat) : Nat :=
  365 * (y - 1) + (y - 1) / 4 - (y - 1) / 100 + (y - 1) / 400 +
    daysBeforeMonth y m + d

/-- Finds the month holding the `rem`-th day (1-based) of year `y`,
walking at most `fuel` months starting from month `m`. -/
def findMonthAux (y : Nat) : Nat → Nat → Nat → Nat × Nat
  | 0, m, rem => (m, rem)
  | fuel + 1, m, rem =>
    if rem ≤ daysInMonth y m then (m, rem)
    else findMonthAux y fuel (m + 1) (rem - daysInMonth y m)

/-- Inverse of `toOrdinal`, following CPython's `_ord2ymd`. -/
def ord2ymd (n : Nat) : Nat × Nat × Nat :=
  let n0 := n - 1
  let n400 := n0 / 146097
  let r400 := n0 % 146097
  let n100 := r400 / 36524
  let r100 := r400 % 36524
  let n4 := r100 / 1461
  let r4 := r100 % 1461
  let n1 := r4 / 365
  let r1 := r4 % 365
  let year := n400 * 400 + n100 * 100 + n4 * 4 + n1 + 1
  if n1 = 4 ∨ n100 = 4 then (year - 1, 12, 31)
  else
    let md := findMonthAux year 12 1 (r1 + 1)
    (year, md.1, md.2)

/-- The largest ordinal representable by `datetime` (9999-12-31). -/
def maxOrdinal : Nat := toOrdinal 9999 12 31

/-- Embeds `dt + timedelta(hours=off)`: `none` models the
OverflowError raised either by `timedelta` normalisation (more than
999999999 days) or by the sum leaving `datetime`'s year range
1 .. 9999. -/
def addHours (dt : PyDateTime) (off : Int) : Option PyDateTime :=
  if 999999999 < (Int.fdiv off 24).natAbs then none
  else
    let total : Int := ((toOrdinal dt.year dt.month dt.day : Int) - 1) * 24 + dt.hour + off
    if total < 0 then none
    else
      let ordi := total.toNat / 24 + 1
      let hr := total.toNat % 24
      if maxOrdinal < ordi then none
      else
        let ymd := ord2ymd ordi
        some ⟨ymd.1, ymd.2.1, ymd.2.2, hr, dt.minute, dt.second⟩

/-- Matches exactly four ASCII digits (the `%Y` directive). -/
def parse4Digits (s : PyStr) : Option (Nat × PyStr) :=
  match s with
  | a :: b :: c :: d :: rest =>
    if isDigitCp a && isDigitCp b && isDigitCp c && isDigitCp d then
      some ((a - 48) * 1000 + (b - 48) * 100 + (c - 48) * 10 + (d - 48), rest)
    else none
  | _ => none

/-- Matches a one- or two-digit field: a two-digit match is taken when
`v2` accepts the pair, otherwise a single digit accepted by `v1` (this
reproduces the regex alternations of CPython `_strptime`, whose
two-digit alternatives always precede the one-digit fallback). -/
def parseTwoOrOne (v2 : Nat → Nat → Bool) (v1 : Nat → Bool) (s : PyStr) :
    Option (Nat × PyStr) :=
  match s with
  | a :: b :: rest =>
    if isDigitCp a && isDigitCp b && v2 (a - 48) (b - 48) then
      some ((a - 48) * 10 + (b - 48), rest)
    else if isDigitCp a && v1 (a - 48) then some (a - 48, b :: rest)
    else none
  | [a] => if isDigitCp a && v1 (a - 48) then some (a - 48, []) else none
  | [] => none

/-- Consumes one literal character. -/
def parseLit (c : Nat) (s : PyStr) : Option PyStr :=
  match s with
  | c' :: rest => if c' = c then some rest else none
  | [] => none

/-- Consumes one or more whitespace characters (the `\s+` a literal
space in the format string compiles to). -/
def parseWs1 (s : PyStr) : Option PyStr :=
  match s with
  | c :: rest => if isPyWs c then some (List.dropWhile isPyWs rest) else none
  | [] => none

/-- The `%m` two-digit acceptor: `1[0-2]|0[1-9]`. -/
def monthV2 (a b : Nat) : Bool :=
  decide ((a = 1 ∧ b ≤ 2) ∨ (a = 0 ∧ 1 ≤ b))

/-- The `%d` two-digit acceptor: `3[01]|[1-2]\d|0[1-9]`. -/
def dayV2 (a b : Nat) : Bool :=
  decide ((a = 3 ∧ b ≤ 1) ∨ (a = 1 ∨ a = 2) ∨ (a = 0 ∧ 1 ≤ b))

/-- The `%H` two-digit acceptor: `2[0-3]|[0-1]\d`. -/
def hourV2 (a b : Nat) : Bool :=
  decide ((a = 2 ∧ b ≤ 3) ∨ a ≤ 1)

/-- The `%M` two-digit acceptor: `[0-5]\d`. -/
def minuteV2 (a _b : Nat) : Bool := decide (a ≤ 5)

/-- The `%S` two-digit acceptor: `6[01]|[0-5]\d`. -/
def secondV2 (a b : Nat) : Bool :=
  decide ((a = 6 ∧ b ≤ 1) ∨ a ≤ 5)

/-- One-digit acceptor `[1-9]` (months and days). -/
def oneToNineV1 (a : Nat) : Bool := decide (1 ≤ a ∧ a ≤ 9)

/-- One-digit acceptor `\d` (hours, minutes, seconds). -/
def anyDigitV1 (_a : Nat) : Bool := true

/-- Embeds `datetime.strptime(s, "%Y-%m-%d %H:%M:%S")`: the textual
match per CPython's `_strptime` regexes, the whole string must be
consumed, and the `datetime` constructor then validates the year
range, the day against the month length, and the second (the regex
itself admits leap seconds 60 and 61, which the constructor rejects).
`none` models the ValueError. -/
def strptimeYmdHms (s : PyStr) : Option PyDateTime :=
  match parse4Digits s with
  | none => none
  | some (y, s1) =>
    match parseLit cpHyphen s1 with
    | none => none
    | some s2 =>
      match parseTwoOrOne monthV2 oneToNineV1 s2 with
      | none => none
      | some (mo, s3) =>
        match parseLit cpHyphen s3 with
        | none => none
        | some s4 =>
          match parseTwoOrOne dayV2 oneToNineV1 s4 with
          | none => none
          | some (d, s5) =>
            match parseWs1 s5 with
            | none => none
            | some s6 =>
              match parseTwoOrOne hourV2 anyDigitV1 s6 with
              | none => none
              | some (h, s7) =>
                match parseLit cpColon s7 with
                | none => none
                | some s8 =>
                  match parseTwoOrOne minuteV2 anyDigitV1 s8 with
                  | none => none
                  | some (mi, s9) =>
                    match parseLit cpColon s9 with
                    | none => none
                    | some s10 =>
                      match parseTwoOrOne secondV2 anyDigitV1 s10 with
                      | none => none
                      | some (sec, s11) =>
                        if s11 = [] ∧ 1 ≤ y ∧ 1 ≤ d ∧ d ≤ daysInMonth y mo ∧ sec ≤ 59 then
                          some ⟨y, mo, d, h, mi, sec⟩
                        else none

/-- Left-pads decimal digits with zeros to the given width. -/
def padNat (width n : Nat) : PyStr :=
  List.replicate (width - (natRepr n).length) 48 ++ natRepr n

/-- Embeds `dt.strftime("%Y-%m-%d %H:%M:%S")`. -/
def formatYmdHms (dt : PyDateTime) : PyStr :=
  padNat 4 dt.year ++ [cpHyphen] ++ padNat 2 dt.month ++ [cpHyphen] ++
    padNat 2 dt.day ++ [cpSpace] ++ padNat 2 dt.hour ++ [cpColon] ++
    padNat 2 dt.minute ++ [cpColon] ++ padNat 2 dt.second

/-- A Python dict from metadata field names to string values, as an
association list. -/
abbrev PyDict := List (PyStr × PyStr)

/-- Embeds `d[key]` returning `none` for the KeyError case. -/
def dictLookup (d : PyDict) (key : PyStr) : Option PyStr :=
  (d.find? (fun kv => decide (kv.1 = key))).map (fun kv => kv.2)

/-- The `"File:FileModifyDate"` metadata key. -/
def fileModifyDateKey : PyStr :=
  pstr ['F', 'i', 'l', 'e', ':', 'F', 'i', 'l', 'e', 'M', 'o', 'd', 'i',
    'f', 'y', 'D', 'a', 't', 'e']

/-- Embeds `v.split("+")[1]`: the segment between the first plus sign
and the following plus sign (or the end); `none` models the IndexError
raised when `v` has no plus sign. -/
def splitPlusTail (v : PyStr) : Option PyStr :=
  if cpPlus ∈ v then
    some ((List.dropWhile (fun c => decide (¬ c = cpPlus)) v).tail.takeWhile
      (fun c => decide (¬ c = cpPlus)))
  else none

/-- Embeds `t.split(":")[0]`. -/
def takeUntilColon (t : PyStr) : PyStr :=
  t.takeWhile (fun c => decide (¬ c = cpColon))

/-- Exceptions that can escape `add_timeshift_value`: the KeyError of
`metadata[0]["File:FileModifyDate"]` when the field is absent, and the
OverflowError of the timedelta arithmetic; `except (ValueError,
IndexError)` catches neither. -/
inductive PyErr
  | keyError
  | overflowError
deriving DecidableEq

/-- Embeds `add_timeshift_value` (source lines 79-99): read the
modification-date field of the first metadata dict, take the text
after `+` and before the next `:`, parse it as an integer count of
hours, parse the date with `strptime`, add the hours and reformat.
ValueError and IndexError (no plus sign, non-numeric offset, malformed
date, empty metadata list) are caught and return the date unchanged;
KeyError and OverflowError escape. -/
def add_timeshift_value (metadata : List PyDict) (date : PyStr) :
    Except PyErr PyStr :=
  match metadata with
  | [] => Except.ok date
  | md :: _ =>
    match dictLookup md fileModifyDateKey with
    | none => Except.error PyErr.keyError
    | some v =>
      match splitPlusTail v with
      | none => Except.ok date
      | some t =>
        match pyIntOfStr (takeUntilColon t) with
        | none => Except.ok date
        | some off =>
          match strptimeYmdHms date with
          | none => Except.ok date
          | some dt =>
            match addHours dt off with
            | none => Except.error PyErr.overflowError
            | some dt2 => Except.ok (formatYmdHms dt2)

deriving instance DecidableEq for Except

def c1Env : Env :=
  ⟨[pyJoin (pstr ['d']) (pstr ['p', '_', '1', '.', 'j', 'p', 'g'])],
    fun _ => CmpRes.different⟩

def c1Kind : Kind := ⟨pstr ['v', 'i', 'd', 'e', 'o', '/', 'm', 'p', '4']⟩

def c3Env : Env :=
  ⟨[pyJoin (pstr ['d']) (pstr ['p', '_', '2', '.', 'j', 'p', 'g'])],
    fun _ => CmpRes.equal⟩

def c3Kind : Kind := ⟨pstr ['i', 'm', 'a', 'g', 'e', '/', 'j', 'p', 'e', 'g']⟩

def c9Env : Env :=
  ⟨[], fun _ => CmpRes.different⟩

def c2Env : Env := ⟨[], fun _ => CmpRes.different⟩

def c2Kind : Kind := ⟨pstr ['i', 'm', 'a', 'g', 'e', '/', 'j', 'p', 'e', 'g']⟩

def c2out : Option PyStr × Nat × List PyStr :=
  (none, 6, [pyJoin (pstr ['d']) (pstr ['p', '_', '5', '.', 'j', 'p', 'g'])])

/-- Indices of the colon characters of `s`, in increasing order (used
to state, independently of the implementation, which positions the
normaliser may touch). -/
def colonPositions (s : PyStr) : List Nat :=
  (List.range s.length).filter (fun k => decide (s.getD k 0 = cpColon))

/-- The sanitisation of the original name as the claim words it: keep
only alphanumeric characters, underscore and hyphen. -/
def sanitizeOriginal (orig : PyStr) : PyStr :=
  orig.filter (fun c => pyIsAlnum c || decide (c = cpUnderscore) ||
    decide (c = cpHyphen))

/-- The index of the last underscore of a stem, stated independently of
the implementation: the largest element of the list of underscore
positions. -/
def lastUnderscoreIdx (stem : PyStr) : Option Nat :=
  ((List.range stem.length).filter
    (fun j => decide (stem.getD j 0 = cpUnderscore))).getLast?

/-- The collision-mutation step as the (amended) claim describes it:
split the stem at its last underscore into base and token; with no
underscore the new name is `{stem}a{ext}`; a token longer than six
characters whose incremented last character stays a valid code point
becomes `token[0:6]` plus that incremented character; when the
increment would leave the Unicode range the ValueError fallback gives
`{stem}a{ext}`; a token of six or fewer characters gets a literal `a`
appended; the new candidate is `{base}_{token'}{ext}`. -/
def mutationSpec (candidate : PyStr) : PyStr :=
  let stem := (splitext candidate).1
  let ext := (splitext candidate).2
  match lastUnderscoreIdx stem with
  | none => stem ++ [cpLowerA] ++ ext
  | some i =>
    let base := stem.take i
    let token := stem.drop (i + 1)
    if 6 < token.length then
      if token.getLastD 0 + 1 < 1114112 then
        base ++ [cpUnderscore] ++ (token.take 6 ++ [token.getLastD 0 + 1]) ++ ext
      else stem ++ [cpLowerA] ++ ext
    else base ++ [cpUnderscore] ++ (token.take 6 ++ [cpLowerA]) ++ ext

def c4CexName : PyStr := [97, 95, 98, 99, 100, 101, 102, 103, 1114111]

def cyclePre : PyStr := [97, 95, 98, 99, 100, 101, 102, 103]

def cycleStart : PyStr := cyclePre ++ [1114111]

def c7Fmd : PyStr := pstr ['2', '0', '2', '1', ':', '0', '5', ':', '0', '1',
  ' ', '1', '0', ':', '2', '0', ':', '3', '0', '+', '0', '2', ':', '0', '0']

def c7Date : PyStr := pstr ['2', '0', '2', '1', '-', '0', '5', '-', '0', '1',
  ' ', '1', '0', ':', '2', '0', ':', '3', '0']

def c7Shifted : PyStr := pstr ['2', '0', '2', '1', '-', '0', '5', '-', '0', '1',
  ' ', '1', '2', ':', '2', '0', ':', '3', '0']

theorem revDropW_append_revTakeW (q : Nat → Bool) (l : PyStr) :
    revDropW q l ++ revTakeW q l = l := by
  unfold revDropW revTakeW
  calc (l.reverse.dropWhile q).reverse ++ (l.reverse.takeWhile q).reverse
      = ((l.reverse.takeWhile q) ++ (l.reverse.dropWhile q)).reverse := by
        rw [List.reverse_append]
    _ = l := by rw [List.takeWhile_append_dropWhile, List.reverse_reverse]

theorem revTakeW_all (q : Nat → Bool) (l : PyStr) :
    ∀ c ∈ revTakeW q l, q c = true := by
  intro c hc
  unfold revTakeW at hc
  rw [List.mem_reverse] at hc
  exact List.mem_takeWhile_imp hc

theorem revDropW_eq_nil_iff (q : Nat → Bool) (l : PyStr) :
    revDropW q l = [] ↔ ∀ c ∈ l, q c = true := by
  unfold revDropW
  rw [List.reverse_eq_nil_iff, List.dropWhile_eq_nil_iff]
  constructor
  · intro h c hc
    exact h c (List.mem_reverse.mpr hc)
  · intro h c hc
    exact h c (List.mem_reverse.mp hc)

theorem dropWhile_eq_cons_head_false (q : Nat → Bool) :
    ∀ (l : List Nat) (c : Nat) (rest : List Nat),
      List.dropWhile q l = c :: rest → q c = false := by
  intro l
  induction l with
  | nil => intro c rest h; simp [List.dropWhile] at h
  | cons a t ih =>
    intro c rest h
    rw [List.dropWhile_cons] at h
    by_cases hqa : q a = true
    · rw [if_pos hqa] at h; exact ih c rest h
    · rw [if_neg hqa] at h
      cases h
      simpa using hqa

theorem revDropW_getLast_not (q : Nat → Bool) (l : PyStr)
    (h : revDropW q l ≠ []) :
    ∃ l' c, revDropW q l = l' ++ [c] ∧ q c = false := by
  cases hd : l.reverse.dropWhile q with
  | nil =>
    exfalso
    apply h
    unfold revDropW
    rw [hd]
    rfl
  | cons c rest =>
    refine ⟨rest.reverse, c, ?_, dropWhile_eq_cons_head_false q l.reverse c rest hd⟩
    unfold revDropW
    rw [hd, List.reverse_cons]

theorem splitextCore_append (p dir pre post : PyStr)
    (hdb : dir ++ (pre ++ post) = p)
    (hlast : pre ≠ [] → ∃ l', pre = l' ++ [cpDot]) :
    (splitextCore p dir pre post).1 ++ (splitextCore p dir pre post).2 = p := by
  unfold splitextCore
  split
  · simp
  · rename_i h1
    obtain ⟨l', hl⟩ := hlast h1
    split
    · subst hl
      rw [List.dropLast_concat]
      rw [← hdb]
      simp
    · simp

theorem splitext_append (p : PyStr) :
    (splitext p).1 ++ (splitext p).2 = p := by
  unfold splitext
  apply splitextCore_append
  · rw [revDropW_append_revTakeW, revDropW_append_revTakeW]
  · intro h1
    obtain ⟨l', c, hplc, hqc⟩ := revDropW_getLast_not notDot _ h1
    have hc : c = cpDot := by
      simp [notDot] at hqc
      exact hqc
    exact ⟨l', by rw [hplc, hc]⟩

theorem rsplitUnderscore_eq_some (name old tok : PyStr)
    (h : rsplitUnderscore name = some (old, tok)) :
    name = old ++ [cpUnderscore] ++ tok ∧ ∀ c ∈ tok, c ≠ cpUnderscore := by
  unfold rsplitUnderscore at h
  split at h
  · cases h
  · rename_i ho
    rw [Option.some_inj, Prod.mk.injEq] at h
    obtain ⟨hold, htok⟩ := h
    obtain ⟨l', c, hplc, hqc⟩ := revDropW_getLast_not notUnder name ho
    have hc : c = cpUnderscore := by
      simp [notUnder] at hqc
      exact hqc
    have hl' : l' = old := by
      rw [← hold, hplc, List.dropLast_concat]
    constructor
    · calc name = revDropW notUnder name ++ revTakeW notUnder name :=
            (revDropW_append_revTakeW notUnder name).symm
        _ = (l' ++ [c]) ++ tok := by rw [hplc, htok]
        _ = old ++ [cpUnderscore] ++ tok := by rw [hl', hc]
    · intro c' hc'
      have := revTakeW_all notUnder name c' (htok ▸ hc')
      simp [notUnder] at this
      exact this

theorem pyJoin_ne_nil (a b : PyStr) (hb : b ≠ []) : pyJoin a b ≠ [] := by
  unfold pyJoin
  split
  · exact hb
  · split
    · simp [hb]
    · simp

/-- C10: fix_date_format is total over optional input: `None` is
returned unchanged (and no exception path exists — the Lean function
is total by construction), and a present string always yields a
present string, so normalisation is safely applied to the possibly
absent extraction result. -/
theorem C10_fix_date_format_total_on_none :
    fix_date_format none = none ∧
      ∀ s : PyStr, (fix_date_format (some s)).isSome = true := by
  constructor
  · rfl
  · intro s
    by_cases h : countColon s > 2
    · simp [fix_date_format, h]
    · simp [fix_date_format, h]

/-- C1: whenever check_if_file_exists returns a non-Skip result
`(dest_filepath, filename)`, that `dest_filepath` is absent from the
destination-directory state consulted by the existence check, and it
is the join of the destination directory with the returned filename;
hence every filename the caller writes is unique in the destination at
that moment. -/
theorem C1_accepts_only_absent_paths :
    ∀ (fuel : Nat) (env : Env) (filepath dest_path filename : PyStr)
      (kind : Kind) (d f : PyStr),
      check_if_file_exists env filepath dest_path filename kind fuel =
        some (some d, f) →
      d ∉ env.dirState ∧ d = pyJoin dest_path f := by
  intro fuel
  induction fuel with
  | zero =>
    intro env fp dp fn k d f h
    simp [check_if_file_exists] at h
  | succ n ih =>
    intro env fp dp fn k d f h
    simp only [check_if_file_exists] at h
    split at h
    · split at h
      · split at h
        · simp at h
        · exact ih env fp dp (mutate_filename fn) k d f h
      · exact ih env fp dp (mutate_filename fn) k d f h
    · rename_i hex
      simp only [Option.some.injEq, Prod.mk.injEq] at h
      obtain ⟨h1, h2⟩ := h
      subst h2
      subst h1
      refine ⟨?_, rfl⟩
      simp only [pyExistsB] at hex
      simpa using hex

/-- Witness for C1 at a concrete collision: the name `p_1.jpg` exists,
the resolver mutates it to `p_1a.jpg`, and the accepted path is indeed
absent from the directory state. -/
theorem C1_accepts_only_absent_paths_witness :
    check_if_file_exists c1Env (pstr ['s']) (pstr ['d'])
        (pstr ['p', '_', '1', '.', 'j', 'p', 'g']) c1Kind 2 =
      some (some (pyJoin (pstr ['d']) (pstr ['p', '_', '1', 'a', '.', 'j', 'p', 'g'])),
        pstr ['p', '_', '1', 'a', '.', 'j', 'p', 'g']) ∧
    pyJoin (pstr ['d']) (pstr ['p', '_', '1', 'a', '.', 'j', 'p', 'g']) ∉ c1Env.dirState :=
  ⟨by decide,
    (C1_accepts_only_absent_paths 2 c1Env (pstr ['s']) (pstr ['d'])
      (pstr ['p', '_', '1', '.', 'j', 'p', 'g']) c1Kind
      (pyJoin (pstr ['d']) (pstr ['p', '_', '1', 'a', '.', 'j', 'p', 'g']))
      (pstr ['p', '_', '1', 'a', '.', 'j', 'p', 'g']) (by decide)).1⟩

/-- C3: at an existing candidate destination, (a) image kind with an
equal pixel comparison yields the Skip signal `(False, "")` and the
save step performs no copy, leaving the directory state unchanged; (b)
image kind with a decode error proceeds to name mutation; (c) a
non-image kind bypasses the comparison and goes directly to mutation,
and a non-image file is never answered with the Skip signal. -/
theorem C3_duplicate_detection_by_kind :
    ∀ (env : Env) (fp dp fn : PyStr) (k : Kind) (fuel : Nat),
      (kindIsImage k = true → pyExistsB env.dirState (pyJoin dp fn) = true →
        env.cmp (pyJoin dp fn) = CmpRes.equal →
        check_if_file_exists env fp dp fn k (fuel + 1) = some (none, []) ∧
        ∀ dr cp, save_renamed_file env fp dp fn k dr cp (fuel + 1) =
          some (SaveResult.duplicateDetected, env.dirState)) ∧
      (kindIsImage k = true → pyExistsB env.dirState (pyJoin dp fn) = true →
        env.cmp (pyJoin dp fn) = CmpRes.decodeError → fn ≠ [] →
        check_if_file_exists env fp dp fn k (fuel + 1) =
          check_if_file_exists env fp dp (mutate_filename fn) k fuel) ∧
      (kindIsImage k = false → pyExistsB env.dirState (pyJoin dp fn) = true →
        check_if_file_exists env fp dp fn k (fuel + 1) =
          check_if_file_exists env fp dp (mutate_filename fn) k fuel) ∧
      (kindIsImage k = false → ∀ (fuel2 : Nat) (fn2 : PyStr) (r : Option PyStr × PyStr),
        check_if_file_exists env fp dp fn2 k fuel2 = some r → r.1 ≠ none) := by
  intro env fp dp fn k fuel
  refine ⟨?_, ?_, ?_, ?_⟩
  · intro hk hex hcmp
    have hchk : check_if_file_exists env fp dp fn k (fuel + 1) = some (none, []) := by
      simp only [check_if_file_exists, hex, hk, if_true,
        compare_possible_duplicate_images, hcmp]
      simp
    refine ⟨hchk, ?_⟩
    intro dr cp
    unfold save_renamed_file
    rw [hchk]
  · intro hk hex hcmp hfn
    simp only [check_if_file_exists, hex, hk, if_true,
      compare_possible_duplicate_images, hcmp]
    have hj : pyJoin dp fn ≠ [] := pyJoin_ne_nil dp fn hfn
    simp [hj, hfn]
  · intro hk hex
    simp only [check_if_file_exists, hex, hk, if_true]
    simp [hk]
  · intro hk fuel2
    induction fuel2 with
    | zero =>
      intro fn2 r h
      simp [check_if_file_exists] at h
    | succ n ih =>
      intro fn2 r h
      simp only [check_if_file_exists, hk] at h
      split at h
      · simp only [Bool.false_eq_true, if_false] at h
        exact ih (mutate_filename fn2) r h
      · rename_i hex2
        simp only [Option.some.injEq] at h
        subst h
        simp

/-- Witness for C3: a true duplicate image is answered with Skip and
the save step reports a duplicate without touching the directory
state. -/
theorem C3_duplicate_detection_by_kind_witness :
    check_if_file_exists c3Env (pstr ['s']) (pstr ['d'])
        (pstr ['p', '_', '2', '.', 'j', 'p', 'g']) c3Kind 1 = some (none, []) ∧
    save_renamed_file c3Env (pstr ['s']) (pstr ['d'])
        (pstr ['p', '_', '2', '.', 'j', 'p', 'g']) c3Kind false true 1 =
      some (SaveResult.duplicateDetected, c3Env.dirState) :=
  ⟨((C3_duplicate_detection_by_kind c3Env (pstr ['s']) (pstr ['d'])
      (pstr ['p', '_', '2', '.', 'j', 'p', 'g']) c3Kind 0).1 (by decide) (by decide)
      (by decide)).1,
    ((C3_duplicate_detection_by_kind c3Env (pstr ['s']) (pstr ['d'])
      (pstr ['p', '_', '2', '.', 'j', 'p', 'g']) c3Kind 0).1 (by decide) (by decide)
      (by decide)).2 false true⟩

/-- C9: with dry_run set, save_renamed_file leaves the directory state
unchanged, while the naming decision is computed by the same collision
resolution as a real run: a Skip decision is reported as the duplicate
message, and otherwise the reported would-be name is exactly the name
a real (successful) run would save. -/
theorem C9_dry_run_no_mutation_same_decision :
    ∀ (env : Env) (fp dp fn : PyStr) (k : Kind) (cp : Bool) (fuel : Nat)
      (res : Option PyStr × PyStr),
      check_if_file_exists env fp dp fn k fuel = some res →
      ((res.1 = none ∨ res.1 = some []) →
        save_renamed_file env fp dp fn k true cp fuel =
          some (SaveResult.duplicateDetected, env.dirState)) ∧
      (∀ d f, res = (some d, f) → d ≠ [] →
        save_renamed_file env fp dp fn k true cp fuel =
          some (SaveResult.dryRunName f, env.dirState) ∧
        save_renamed_file env fp dp fn k false true fuel =
          some (SaveResult.saved f, env.dirState ++ [d])) := by
  intro env fp dp fn k cp fuel res hchk
  constructor
  · intro hskip
    unfold save_renamed_file
    rw [hchk]
    obtain ⟨d, f⟩ := res
    rcases hskip with h1 | h1 <;> simp only at h1 <;> subst h1
    · rfl
    · simp
  · intro d f hres hd
    subst hres
    unfold save_renamed_file
    rw [hchk]
    simp [hd]

/-- Witness for C9: on an empty destination the dry run reports the
candidate name and changes nothing, while the real run saves that same
name. -/
theorem C9_dry_run_no_mutation_same_decision_witness :
    save_renamed_file c9Env (pstr ['s']) (pstr ['d'])
        (pstr ['p', '_', '1', '.', 'j', 'p', 'g']) c1Kind true true 1 =
      some (SaveResult.dryRunName (pstr ['p', '_', '1', '.', 'j', 'p', 'g']),
        c9Env.dirState) ∧
    save_renamed_file c9Env (pstr ['s']) (pstr ['d'])
        (pstr ['p', '_', '1', '.', 'j', 'p', 'g']) c1Kind false true 1 =
      some (SaveResult.saved (pstr ['p', '_', '1', '.', 'j', 'p', 'g']),
        c9Env.dirState ++ [pyJoin (pstr ['d']) (pstr ['p', '_', '1', '.', 'j', 'p', 'g'])]) :=
  (C9_dry_run_no_mutation_same_decision c9Env (pstr ['s']) (pstr ['d'])
      (pstr ['p', '_', '1', '.', 'j', 'p', 'g']) c1Kind true 1
      (some (pyJoin (pstr ['d']) (pstr ['p', '_', '1', '.', 'j', 'p', 'g'])),
        pstr ['p', '_', '1', '.', 'j', 'p', 'g'])
      (by decide)).2
    (pyJoin (pstr ['d']) (pstr ['p', '_', '1', '.', 'j', 'p', 'g']))
    (pstr ['p', '_', '1', '.', 'j', 'p', 'g']) rfl (by decide)

/-- C2 (amended): process_file advances the counter to count + 1 for
every file whose type is recognised, regardless of whether metadata
extraction produced a date; but for an unrecognised file type
(`filetype.guess` returning `None`) it returns the counter unchanged
together with no date. -/
theorem C2_counter_advances_only_for_recognised :
    ∀ (env : Env) (kind : Kind) (ei ev : Option PyStr) (fp pfx : PyStr)
      (count : Nat) (dp : PyStr) (io dr cp : Bool) (fuel : Nat)
      (out : Option PyStr × Nat × List PyStr),
      (process_file env (some kind) ei ev fp pfx count dp io dr cp fuel =
          some out → out.2.1 = count + 1) ∧
      process_file env none ei ev fp pfx count dp io dr cp fuel =
        some (none, count, env.dirState) := by
  intro env kind ei ev fp pfx count dp io dr cp fuel out
  constructor
  · intro h
    simp only [process_file] at h
    split at h
    · cases h
    · cases h
      rfl
  · rfl

/-- Counterexample to C2 as stated: for a file whose type cannot be
recognised (`filetype.guess` returns `None`, source lines 429-432),
`process_file` returns the counter unchanged (5, not 5 + 1); the
sequential counter does not advance for unknown file types. -/
theorem C2_counterexample_unknown_type_keeps_counter :
    process_file c2Env none none none (pstr ['x']) (pstr ['p']) 5 (pstr ['d'])
        false false true 1 = some (none, 5, []) ∧ ¬ (5 : Nat) = 5 + 1 :=
  ⟨by decide, by decide⟩

/-- Witness for C2 (amended): a recognised image with no extractable
date still advances the counter from 5 to 6. -/
theorem C2_counter_advances_only_for_recognised_witness :
    process_file c2Env (some c2Kind) none none (pstr ['s', '.', 'j', 'p', 'g'])
        (pstr ['p']) 5 (pstr ['d']) false false true 1 = some c2out ∧
      c2out.2.1 = 5 + 1 :=
  ⟨by decide,
    (C2_counter_advances_only_for_recognised c2Env c2Kind none none
      (pstr ['s', '.', 'j', 'p', 'g']) (pstr ['p']) 5 (pstr ['d']) false false true 1
      c2out).1 (by decide)⟩

theorem colonPositions_cons (c : Nat) (rest : PyStr) :
    colonPositions (c :: rest) =
      (if c = cpColon then [0] else []) ++ (colonPositions rest).map (· + 1) := by
  unfold colonPositions
  rw [List.length_cons, List.range_succ_eq_map, List.filter_cons]
  have h1 : (List.map Nat.succ (List.range rest.length)).filter
      (fun k => decide ((c :: rest).getD k 0 = cpColon)) =
      ((List.range rest.length).filter
        (fun k => decide (rest.getD k 0 = cpColon))).map (· + 1) := by
    rw [List.filter_map]
    congr 1
  rw [h1]
  by_cases hc : c = cpColon
  · simp [hc]
  · simp [hc]

theorem replaceColonHyphen_spec (s : PyStr) : ∀ k : Nat,
    (replaceColonHyphen k s).length = s.length ∧
    ∀ idx, idx < s.length →
      (replaceColonHyphen k s).getD idx 0 =
        (if idx ∈ (colonPositions s).take k then cpHyphen else s.getD idx 0) := by
  induction s with
  | nil =>
    intro k
    constructor
    · cases k <;> rfl
    · intro idx h
      simp at h
  | cons c rest ih =>
    intro k
    cases k with
    | zero =>
      constructor
      · rfl
      · intro idx h
        simp [replaceColonHyphen]
    | succ m =>
      by_cases hc : c = cpColon
      · have hrw : replaceColonHyphen (m + 1) (c :: rest) =
            cpHyphen :: replaceColonHyphen m rest := by
          simp [replaceColonHyphen, hc]
        have htake : (colonPositions (c :: rest)).take (m + 1) =
            0 :: ((colonPositions rest).take m).map (· + 1) := by
          rw [colonPositions_cons, if_pos hc]
          simp [← List.map_take]
        constructor
        · rw [hrw]
          simp [(ih m).1]
        · intro idx hidx
          rw [hrw, htake]
          cases idx with
          | zero => simp
          | succ j =>
            have hj : j < rest.length := by
              simp at hidx
              omega
            have := (ih m).2 j hj
            simp only [List.getD_cons_succ, this, List.mem_cons, List.mem_map]
            by_cases hmem : j ∈ (colonPositions rest).take m
            · rw [if_pos hmem, if_pos]
              right
              exact ⟨j, hmem, rfl⟩
            · rw [if_neg hmem, if_neg]
              intro hcontra
              rcases hcontra with h0 | ⟨j', hj', hjeq⟩
              · omega
              · have : j' = j := by omega
                subst this
                exact hmem hj'
      · have hrw : replaceColonHyphen (m + 1) (c :: rest) =
            c :: replaceColonHyphen (m + 1) rest := by
          simp [replaceColonHyphen, hc]
        have htake : (colonPositions (c :: rest)).take (m + 1) =
            ((colonPositions rest).take (m + 1)).map (· + 1) := by
          rw [colonPositions_cons, if_neg hc]
          simp [← List.map_take]
        constructor
        · rw [hrw]
          simp [(ih (m + 1)).1]
        · intro idx hidx
          rw [hrw, htake]
          cases idx with
          | zero =>
            simp only [List.getD_cons_zero]
            rw [if_neg]
            simp only [List.mem_map]
            rintro ⟨j', _, hjeq⟩
            omega
          | succ j =>
            have hj : j < rest.length := by
              simp at hidx
              omega
            have := (ih (m + 1)).2 j hj
            simp only [List.getD_cons_succ, this, List.mem_map]
            by_cases hmem : j ∈ (colonPositions rest).take (m + 1)
            · rw [if_pos hmem, if_pos ⟨j, hmem, rfl⟩]
            · rw [if_neg hmem, if_neg]
              rintro ⟨j', hj', hjeq⟩
              have : j' = j := by omega
              subst this
              exact hmem hj'

/-- C6: for a present date string with more than two colons,
fix_date_format yields a string of the same length in which exactly
the positions of the first two colons now hold hyphens and every
other position is unchanged; a string with two or fewer colons passes
through unchanged; and the spec's example evaluates as stated. -/
theorem C6_normalize_replaces_first_two_colons :
    ∀ s : PyStr,
      (countColon s ≤ 2 → fix_date_format (some s) = some s) ∧
      (2 < countColon s →
        fix_date_format (some s) = some (replaceColonHyphen 2 s) ∧
        (replaceColonHyphen 2 s).length = s.length ∧
        ∀ idx, idx < s.length →
          (replaceColonHyphen 2 s).getD idx 0 =
            (if idx ∈ (colonPositions s).take 2 then cpHyphen
              else s.getD idx 0)) ∧
      fix_date_format (some (pstr ['2', '0', '2', '1', ':', '0', '5', ':', '0', '1',
          ' ', '1', '0', ':', '2', '0', ':', '3', '0'])) =
        some (pstr ['2', '0', '2', '1', '-', '0', '5', '-', '0', '1',
          ' ', '1', '0', ':', '2', '0', ':', '3', '0']) := by
  intro s
  refine ⟨?_, ?_, by decide⟩
  · intro h
    have hn : ¬ countColon s > 2 := by omega
    simp [fix_date_format, hn]
  · intro h
    refine ⟨by simp [fix_date_format, h], (replaceColonHyphen_spec s 2).1,
      (replaceColonHyphen_spec s 2).2⟩

/-- Witness for C6: the two universally quantified branches applied to
a short malformed string and to the spec's example string. -/
theorem C6_normalize_replaces_first_two_colons_witness :
    fix_date_format (some (pstr ['1', '0', ':', '2', '0'])) =
      some (pstr ['1', '0', ':', '2', '0']) ∧
    fix_date_format (some (pstr ['2', '0', '2', '1', ':', '0', '5', ':', '0', '1',
        ' ', '1', '0', ':', '2', '0', ':', '3', '0'])) =
      some (replaceColonHyphen 2 (pstr ['2', '0', '2', '1', ':', '0', '5', ':',
        '0', '1', ' ', '1', '0', ':', '2', '0', ':', '3', '0'])) :=
  ⟨(C6_normalize_replaces_first_two_colons (pstr ['1', '0', ':', '2', '0'])).1
      (by decide),
    ((C6_normalize_replaces_first_two_colons (pstr ['2', '0', '2', '1', ':', '0',
      '5', ':', '0', '1', ' ', '1', '0', ':', '2', '0', ':', '3', '0'])).2.1
      (by decide)).1⟩

theorem filter_map_of_pred_comm (f : Nat → Nat) (p : Nat → Bool)
    (hp : ∀ c, p (f c) = p c) (s : PyStr) :
    (s.map f).filter p = (s.filter p).map f := by
  induction s with
  | nil => rfl
  | cons c rest ih =>
    simp only [List.map_cons, List.filter_cons, hp]
    by_cases hc : p c = true
    · simp [hc, ih]
    · rw [Bool.not_eq_true] at hc
      simp [hc, ih]

theorem token_filter_map_comm (s : PyStr) :
    (s.map (fun c => if c = cpSpace then cpUnderscore else c)).filter
        (fun c => decide (¬ c = cpColon)) =
      (s.filter (fun c => decide (¬ c = cpColon))).map
        (fun c => if c = cpSpace then cpUnderscore else c) :=
  filter_map_of_pred_comm (fun c => if c = cpSpace then cpUnderscore else c)
    (fun c => decide (¬ c = cpColon))
    (by
      intro c
      by_cases hsp : c = cpSpace
      · subst hsp
        decide
      · simp [hsp])
    s

/-- C8: construct_filename realises the claimed shape
`{prefix}_{token}[_{sanitizedOriginal}]{extension}`: with no date the
counter's decimal form is the token (and the first spec example
holds); with a date string the token is the date with colons removed
and spaces turned into underscores, stated here in the claim's
independent order of operations (and the second spec example holds);
and with includeOriginal set and a non-empty original name, the
sanitised original is appended after one more underscore. -/
theorem C8_construct_filename_shape :
    ∀ (p s : PyStr) (count : Nat) (ext orig : PyStr),
      (construct_filename p none count ext false orig =
        p ++ [cpUnderscore] ++ natRepr count ++ ext) ∧
      (construct_filename p (some s) count ext false orig =
        p ++ [cpUnderscore] ++
          ((s.filter (fun c => decide (¬ c = cpColon))).map
            (fun c => if c = cpSpace then cpUnderscore else c)) ++ ext) ∧
      (orig ≠ [] →
        construct_filename p none count ext true orig =
          p ++ [cpUnderscore] ++ natRepr count ++ [cpUnderscore] ++
            sanitizeOriginal orig ++ ext) ∧
      (orig ≠ [] →
        construct_filename p (some s) count ext true orig =
          p ++ [cpUnderscore] ++
            ((s.filter (fun c => decide (¬ c = cpColon))).map
              (fun c => if c = cpSpace then cpUnderscore else c)) ++
            [cpUnderscore] ++ sanitizeOriginal orig ++ ext) ∧
      construct_filename (pstr ['t', 'r', 'i', 'p']) none 7
          (pstr ['.', 'j', 'p', 'g']) false [] =
        pstr ['t', 'r', 'i', 'p', '_', '7', '.', 'j', 'p', 'g'] ∧
      construct_filename (pstr ['t', 'r', 'i', 'p'])
          (some (pstr ['2', '0', '2', '1', '-', '0', '5', '-', '0', '1', ' ',
            '1', '0', ':', '2', '0', ':', '3', '0'])) 7
          (pstr ['.', 'j', 'p', 'g']) false [] =
        pstr ['t', 'r', 'i', 'p', '_', '2', '0', '2', '1', '-', '0', '5', '-',
          '0', '1', '_', '1', '0', '2', '0', '3', '0', '.', 'j', 'p', 'g'] := by
  intro p s count ext orig
  refine ⟨?_, ?_, ?_, ?_, by decide, by decide⟩
  · simp [construct_filename]
  · simp [construct_filename]
    simpa using token_filter_map_comm s
  · intro ho
    simp [construct_filename, ho, sanitizeOriginal]
  · intro ho
    simp [construct_filename, ho, sanitizeOriginal]
    simpa using token_filter_map_comm s

/-- Witness for C8: the includeOriginal branch applied to a concrete
original name containing characters that must be dropped. -/
theorem C8_construct_filename_shape_witness :
    construct_filename (pstr ['t', 'r', 'i', 'p']) none 7
        (pstr ['.', 'j', 'p', 'g']) true (pstr ['a', '!', 'b', '-', '_', '2']) =
      pstr ['t', 'r', 'i', 'p'] ++ [cpUnderscore] ++ natRepr 7 ++ [cpUnderscore] ++
        sanitizeOriginal (pstr ['a', '!', 'b', '-', '_', '2']) ++
        pstr ['.', 'j', 'p', 'g'] :=
  (C8_construct_filename_shape (pstr ['t', 'r', 'i', 'p']) [] 7
    (pstr ['.', 'j', 'p', 'g']) (pstr ['a', '!', 'b', '-', '_', '2'])).2.2.1
    (by decide)

theorem getLast?_filter_range (p : Nat → Bool) :
    ∀ (n m : Nat), m < n → p m = true → (∀ j, m < j → j < n → p j = false) →
      ((List.range n).filter p).getLast? = some m := by
  intro n
  induction n with
  | zero =>
    intro m hm
    exact absurd hm (Nat.not_lt_zero m)
  | succ k ih =>
    intro m hm hpm habove
    rw [List.range_succ, List.filter_append]
    by_cases hmk : m = k
    · subst hmk
      rw [List.filter_cons]
      simp only [hpm, if_true, List.filter_nil]
      exact List.getLast?_concat _
    · have hk : p k = false := habove k (by omega) (by omega)
      rw [List.filter_cons]
      simp only [hk, Bool.false_eq_true, if_false, List.filter_nil, List.append_nil]
      exact ih m (by omega) hpm (fun j h1 h2 => habove j h1 (by omega))

theorem rsplit_none_iff_no_underscore (stem : PyStr) :
    rsplitUnderscore stem = none ↔ ∀ c ∈ stem, c ≠ cpUnderscore := by
  unfold rsplitUnderscore
  constructor
  · intro h
    split at h
    · rename_i hnil
      intro c hc
      have := (revDropW_eq_nil_iff notUnder stem).mp hnil c hc
      simp [notUnder] at this
      exact this
    · cases h
  · intro h
    rw [if_pos]
    rw [revDropW_eq_nil_iff]
    intro c hc
    simp [notUnder]
    exact h c hc

theorem lastUnderscoreIdx_none_iff (stem : PyStr) :
    lastUnderscoreIdx stem = none ↔ ∀ c ∈ stem, c ≠ cpUnderscore := by
  unfold lastUnderscoreIdx
  rw [List.getLast?_eq_none_iff, List.filter_eq_nil_iff]
  constructor
  · intro h c hc
    obtain ⟨j, hj, hjc⟩ := List.mem_iff_getElem.mp hc
    intro hcu
    exact h j (List.mem_range.mpr hj)
      (by
        simp only [decide_eq_true_eq]
        rw [List.getD_eq_getElem stem 0 hj, hjc]
        exact hcu)
  · intro h j hj
    have hjlt := List.mem_range.mp hj
    simp only [decide_eq_true_eq]
    intro hju
    apply h (stem.getD j 0) ?_ hju
    rw [List.getD_eq_getElem stem 0 hjlt]
    exact List.getElem_mem hjlt

theorem lastUnderscoreIdx_of_decomp (old tok : PyStr)
    (htok : ∀ c ∈ tok, c ≠ cpUnderscore) :
    lastUnderscoreIdx (old ++ [cpUnderscore] ++ tok) = some old.length := by
  unfold lastUnderscoreIdx
  apply getLast?_filter_range
  · simp
  · simp only [decide_eq_true_eq]
    rw [List.getD_append _ _ _ _ (by simp)]
    rw [List.getD_append_right _ _ _ _ (Nat.le_refl _)]
    simp
  · intro j h1 h2
    simp only [List.length_append, List.length_cons, List.length_nil] at h2
    have hge : (old ++ [cpUnderscore]).length ≤ j := by
      simp only [List.length_append, List.length_cons, List.length_nil]
      omega
    rw [decide_eq_false_iff_not]
    rw [List.getD_append_right _ _ _ _ hge]
    have hidx : j - (old ++ [cpUnderscore]).length < tok.length := by
      simp only [List.length_append, List.length_cons, List.length_nil]
      omega
    rw [List.getD_eq_getElem tok 0 hidx]
    exact htok _ (List.getElem_mem hidx)

/-- C4 (amended): the collision-mutation step of check_if_file_exists
equals the claim's description, with the one correction that a token
longer than six characters whose last character is U+10FFFF cannot be
incremented (`chr` raises ValueError) and falls back to `{stem}a{ext}`
instead of `{base}_{token[0:6]}{incremented}{ext}`. -/
theorem C4_mutation_step_matches_description :
    ∀ s : PyStr, mutate_filename s = mutationSpec s := by
  intro s
  simp only [mutate_filename, mutationSpec]
  cases hr : rsplitUnderscore (splitext s).1 with
  | none =>
    have hnone : lastUnderscoreIdx (splitext s).1 = none :=
      (lastUnderscoreIdx_none_iff _).mpr ((rsplit_none_iff_no_underscore _).mp hr)
    rw [hnone]
  | some ot =>
    obtain ⟨old, tok⟩ := ot
    obtain ⟨hdecomp, htok⟩ := rsplitUnderscore_eq_some _ old tok hr
    have hlast : lastUnderscoreIdx (splitext s).1 = some old.length := by
      rw [hdecomp]
      exact lastUnderscoreIdx_of_decomp old tok htok
    have htake : (splitext s).1.take old.length = old := by
      rw [hdecomp, List.append_assoc, List.take_left]
    have hdrop : (splitext s).1.drop (old.length + 1) = tok := by
      rw [hdecomp]
      have hlen : (old ++ [cpUnderscore]).length = old.length + 1 := by simp
      rw [← hlen, List.append_assoc, ← List.append_assoc, List.drop_left]
    rw [hlast]
    simp only [htake, hdrop]

/-- Counterexample to C4 as stated: for the colliding name
`a_bcdefg\u{10FFFF}` the token has seven characters, so the claim
predicts `token[0:6]` followed by the character one code point above
U+10FFFF; the code instead hits the ValueError of `chr(0x110000)` and
appends a literal `a` to the whole stem. -/
theorem C4_counterexample_increment_overflow :
    mutate_filename c4CexName = c4CexName ++ [cpLowerA] ∧
    mutate_filename c4CexName ≠
      [97, 95] ++ ([98, 99, 100, 101, 102, 103] ++ [1114112]) := by
  constructor
  · decide
  · decide

theorem revTakeW_append_singleton (q : Nat → Bool) (l : PyStr) (c : Nat)
    (hc : q c = true) : revTakeW q (l ++ [c]) = revTakeW q l ++ [c] := by
  unfold revTakeW
  rw [List.reverse_append]
  simp [List.takeWhile_cons, hc]

theorem revDropW_append_singleton (q : Nat → Bool) (l : PyStr) (c : Nat)
    (hc : q c = true) : revDropW q (l ++ [c]) = revDropW q l := by
  unfold revDropW
  rw [List.reverse_append]
  simp [List.dropWhile_cons, hc]

theorem mutate_cycle_step (c : Nat) (h1 : 98 ≤ c) (h2 : c ≤ 1114110) :
    mutate_filename (cyclePre ++ [c]) = cyclePre ++ [c + 1] := by
  have hns : notSlash c = true := by
    simp [notSlash, cpSlash]
    omega
  have hnd : notDot c = true := by
    simp [notDot, cpDot]
    omega
  have hnu : notUnder c = true := by
    simp [notUnder, cpUnderscore]
    omega
  have hsp : splitext (cyclePre ++ [c]) = (cyclePre ++ [c], []) := by
    unfold splitext
    rw [revTakeW_append_singleton notSlash cyclePre c hns,
      revDropW_append_singleton notSlash cyclePre c hns]
    rw [show revTakeW notSlash cyclePre = cyclePre from by decide]
    rw [revDropW_append_singleton notDot cyclePre c hnd]
    rw [show revDropW notDot cyclePre = [] from by decide]
    rfl
  have hrs : rsplitUnderscore (cyclePre ++ [c]) =
      some ([97], [98, 99, 100, 101, 102, 103] ++ [c]) := by
    unfold rsplitUnderscore
    rw [revDropW_append_singleton notUnder cyclePre c hnu,
      revTakeW_append_singleton notUnder cyclePre c hnu]
    rw [show revDropW notUnder cyclePre = [97, 95] from by decide,
      show revTakeW notUnder cyclePre = [98, 99, 100, 101, 102, 103] from by decide]
    rfl
  simp only [mutate_filename, hsp, hrs]
  rw [if_pos (by simp)]
  rw [List.getLastD_concat]
  rw [if_pos (by omega)]
  have htk : List.take 6 ([98, 99, 100, 101, 102, 103] ++ [c] : PyStr) =
      [98, 99, 100, 101, 102, 103] := by
    rw [List.take_append_of_le_length (by simp)]
    rfl
  rw [htk]
  simp [cyclePre, cpUnderscore]

theorem iterateMutate_succ_right (k : Nat) :
    ∀ s : PyStr, iterateMutate (k + 1) s = mutate_filename (iterateMutate k s) := by
  induction k with
  | zero => intro s; rfl
  | succ m ih =>
    intro s
    show iterateMutate (m + 1) (mutate_filename s) = _
    rw [ih (mutate_filename s)]
    rfl

theorem iterateMutate_add (a b : Nat) (s : PyStr) :
    iterateMutate (b + a) s = iterateMutate b (iterateMutate a s) := by
  induction a generalizing s with
  | zero => rfl
  | succ m ih =>
    have hstep : iterateMutate (b + m + 1) s =
        iterateMutate (b + m) (mutate_filename s) := rfl
    show iterateMutate (b + m + 1) s = iterateMutate b (iterateMutate (m + 1) s)
    rw [hstep, ih (mutate_filename s)]
    rfl

theorem cycle_chain :
    ∀ k : Nat, k ≤ 1114013 →
      iterateMutate k (cyclePre ++ [98]) = cyclePre ++ [98 + k] := by
  intro k
  induction k with
  | zero =>
    intro _
    rfl
  | succ m ih =>
    intro hk
    rw [iterateMutate_succ_right m (cyclePre ++ [98]), ih (by omega),
      mutate_cycle_step (98 + m) (by omega) (by omega)]
    rfl

/-- Counterexample to C5 as stated: the chain of candidate names
starting from `a_bcdefg\u{10FFFF}` revisits its starting name after
1114015 mutation steps (positions 0 and 1114015 of the chain are
equal): the ValueError fallback at the top code point grows the name
by one `a`, the next step truncates back to a seven-character token,
and the last character then climbs back up to U+10FFFF. -/
theorem C5_counterexample_mutation_cycle :
    iterateMutate 1114015 cycleStart = iterateMutate 0 cycleStart ∧
      (1114015 : Nat) ≠ 0 := by
  constructor
  · have h2 : iterateMutate 2 cycleStart = cyclePre ++ [98] := by decide
    have hadd : iterateMutate (1114013 + 2) cycleStart =
        iterateMutate 1114013 (iterateMutate 2 cycleStart) :=
      iterateMutate_add 2 1114013 cycleStart
    have hnum : (1114015 : Nat) = 1114013 + 2 := by norm_num
    rw [hnum, hadd, h2, cycle_chain 1114013 (by norm_num)]
    show cyclePre ++ [98 + 1114013] = cycleStart
    norm_num [cycleStart]
  · decide

/-- C5 (amended): each application of the collision-mutation step
strictly changes the candidate name — the step has no fixed point.
(The stronger claim that one resolution chain never revisits any
candidate is false: see the cycle through the top code point.) -/
theorem C5_mutation_has_no_fixed_point :
    ∀ s : PyStr, mutate_filename s ≠ s := by
  intro s h
  have hs : (splitext s).1 ++ (splitext s).2 = s := splitext_append s
  simp only [mutate_filename] at h
  cases hr : rsplitUnderscore (splitext s).1 with
  | none =>
    rw [hr] at h
    have hlen := congrArg List.length h
    have hlen2 := congrArg List.length hs
    simp only [List.length_append, List.length_cons, List.length_nil] at hlen hlen2
    omega
  | some ot =>
    obtain ⟨old, tok⟩ := ot
    obtain ⟨hdecomp, _⟩ := rsplitUnderscore_eq_some _ old tok hr
    have hrhs : old ++ [cpUnderscore] ++ tok ++ (splitext s).2 = s := by
      have h' := hs
      rw [hdecomp] at h'
      exact h'
    rw [hr] at h
    simp only at h
    by_cases h6 : 6 < tok.length
    · rw [if_pos h6] at h
      by_cases hlc : tok.getLastD 0 + 1 < 1114112
      · rw [if_pos hlc] at h
        by_cases h7 : tok.length = 7
        · have hdlen : (tok.drop 6).length = 1 := by
            rw [List.length_drop]
            omega
          obtain ⟨x, hx⟩ := List.length_eq_one.mp hdlen
          set t6 := tok.take 6 with ht6
          have htk : tok = t6 ++ [x] := by
            rw [ht6, ← hx]
            exact (List.take_append_drop 6 tok).symm
          have hxlast : tok.getLastD 0 = x := by
            rw [htk, List.getLastD_concat]
          have heq := h.trans hrhs.symm
          rw [hxlast, htk] at heq
          simp only [List.append_assoc] at heq
          have h1 := List.append_cancel_left heq
          have h2 := List.append_cancel_left h1
          have h3 := List.append_cancel_left h2
          simp at h3
        · have heq := h.trans hrhs.symm
          have hlen := congrArg List.length heq
          simp only [List.length_append, List.length_cons, List.length_nil,
            List.length_take] at hlen
          omega
      · rw [if_neg hlc] at h
        have hlen := congrArg List.length h
        have hlen2 := congrArg List.length hs
        simp only [List.length_append, List.length_cons, List.length_nil] at hlen hlen2
        omega
    · rw [if_neg h6] at h
      have heq := h.trans hrhs.symm
      have hlen := congrArg List.length heq
      simp only [List.length_append, List.length_cons, List.length_nil,
        List.length_take] at hlen
      omega

/-- C7 (amended): add_timeshift_value parses the text after `+` and
before the next `:` of the modification-date field as whole hours,
adds them to the parsed date and reformats canonically (the spec's
example: offset `+02:00` turns 10:20:30 into 12:20:30); the ValueError
and IndexError parse failures — empty metadata list, a field value
with no `+`, a non-numeric offset, a malformed date — return the input
date unchanged; but when the modification-date field is absent from
the metadata dict the lookup raises KeyError, which the
`except (ValueError, IndexError)` clause does not catch. -/
theorem C7_timeshift_parse_and_failure_modes :
    (add_timeshift_value [[(fileModifyDateKey, c7Fmd)]] c7Date =
      Except.ok c7Shifted) ∧
    (∀ d : PyStr, add_timeshift_value [] d = Except.ok d) ∧
    (∀ (md : PyDict) (rest : List PyDict) (d v : PyStr),
      dictLookup md fileModifyDateKey = some v → cpPlus ∉ v →
      add_timeshift_value (md :: rest) d = Except.ok d) ∧
    (∀ (md : PyDict) (rest : List PyDict) (d v t : PyStr),
      dictLookup md fileModifyDateKey = some v → splitPlusTail v = some t →
      pyIntOfStr (takeUntilColon t) = none →
      add_timeshift_value (md :: rest) d = Except.ok d) ∧
    (∀ (md : PyDict) (rest : List PyDict) (d v t : PyStr) (off : Int),
      dictLookup md fileModifyDateKey = some v → splitPlusTail v = some t →
      pyIntOfStr (takeUntilColon t) = some off → strptimeYmdHms d = none →
      add_timeshift_value (md :: rest) d = Except.ok d) ∧
    (∀ (md : PyDict) (rest : List PyDict) (d : PyStr),
      dictLookup md fileModifyDateKey = none →
      add_timeshift_value (md :: rest) d = Except.error PyErr.keyError) := by
  refine ⟨by decide, fun d => rfl, ?_, ?_, ?_, ?_⟩
  · intro md rest d v hv hplus
    have hsp : splitPlusTail v = none := by
      simp [splitPlusTail, hplus]
    simp only [add_timeshift_value, hv, hsp]
  · intro md rest d v t hv hsp hint
    simp only [add_timeshift_value, hv, hsp, hint]
  · intro md rest d v t off hv hsp hint hdt
    simp only [add_timeshift_value, hv, hsp, hint, hdt]
  · intro md rest d hv
    simp only [add_timeshift_value, hv]

/-- Witness for C7 (amended): a modification-date value without a plus
sign leaves the date unchanged. -/
theorem C7_timeshift_parse_and_failure_modes_witness :
    add_timeshift_value
        [[(fileModifyDateKey, pstr ['n', 'o', ' ', 'p', 'l', 'u', 's'])]]
        c7Date = Except.ok c7Date :=
  C7_timeshift_parse_and_failure_modes.2.2.1
    [(fileModifyDateKey, pstr ['n', 'o', ' ', 'p', 'l', 'u', 's'])] [] c7Date
    (pstr ['n', 'o', ' ', 'p', 'l', 'u', 's']) (by decide) (by decide)

/-- Counterexample to C7 as stated: with the modification-date field
absent from the metadata (`metadata = [{}]`) the claim says the input
date is returned unchanged and no error is raised, but the code raises
KeyError. -/
theorem C7_counterexample_missing_field_raises :
    add_timeshift_value [([] : PyDict)] c7Date = Except.error PyErr.keyError ∧
    add_timeshift_value [([] : PyDict)] c7Date ≠ Except.ok c7Date := by
  constructor
  · decide
  · decide
